import Mathlib

/-!
# Verification of the AbleClub monitor job-scheduling and notification core

Shallow embedding of the scheduler / job-manager / notification-matcher
subsystem of the `ableclub_monitor` repository:

* `crud/crud_job_execution_history.py` — the execution-history store
  (`create`, `get_latest_execution`, `get_consecutive_failures`,
  `cleanup_old_records`, `is_job_paused`);
* `scheduler/job_manager.py` — the tick handlers
  (`execute_corporate_events_job`, `execute_notification_job`), the retry
  executor (`_execute_with_retry`), the pause transition
  (`_pause_job_due_to_failures`) and `record_job_event`;
* `scheduler/job_scheduler.py` — `SchedulerManager` (`pause_job`,
  `resume_job`, `schedule_job_resume`, `_resume_job_callback`);
* `app/jobs/notification_job.py` — `process_and_notify_users` keyword
  matching and processed-state update.

The database table `job_execution_history` is modelled as a list of records
ordered most-recent-first (the SQLAlchemy queries all order by
`created_at` descending, and `created_at` is a monotone insertion
timestamp, so inserting a new row conses it at the head).  Wall-clock time
is an abstract `Nat`.  External effects (scheduler triggers, email sends)
are recorded in explicit result structures instead of being performed.
-/

namespace AbleClub

/-- One row of the `job_execution_history` table
(`models/job_execution_history.py`), restricted to the fields the
scheduler logic reads or writes.  `created_at` is the insertion timestamp
used by the `order_by(desc(created_at))` queries and by the retention
cutoff comparison. -/
structure JobRecord where
  job_name : String
  status : String
  error_message : Option String := none
  duration : Option Nat := none
  scraped_count : Option Nat := none
  saved_new_count : Option Nat := none
  retry_count : Nat := 0
  created_at : Nat := 0
  deriving Repr, DecidableEq

/-- The execution-history store: all rows, most recent first. -/
abbrev HistoryDb := List JobRecord

/-- `CRUDJobExecutionHistory.create`: inserting a row; since the store is
kept most-recent-first and `created_at` is monotone, the new row goes to
the head. -/
def createRecord (db : HistoryDb) (r : JobRecord) : HistoryDb := r :: db

/-- The rows of one job, most recent first: the SQLAlchemy query
`filter(job_name == job_name).order_by(desc(created_at))`. -/
def recordsForJob (db : HistoryDb) (job_name : String) : List JobRecord :=
  db.filter (fun r => r.job_name == job_name)

/-- `CRUDJobExecutionHistory.get_latest_execution`: first row of the job's
records in most-recent-first order (`.first()`). -/
def get_latest_execution (db : HistoryDb) (job_name : String) :
    Option JobRecord :=
  (recordsForJob db job_name).head?

/-- The `for execution in recent_executions` loop of
`get_consecutive_failures`: add 1 per `"failed"` row, stop (`break`) at
the first row whose status is not `"failed"`. -/
def countConsecutiveFailed : List JobRecord → Nat
  | [] => 0
  | r :: rest =>
      if r.status == "failed" then countConsecutiveFailed rest + 1 else 0

/-- `CRUDJobExecutionHistory.get_consecutive_failures`: scan the 10 most
recent rows of the job (`.order_by(desc(created_at)).limit(10)`) counting
`"failed"` rows from the top until a non-failed row is hit. -/
def get_consecutive_failures (db : HistoryDb) (job_name : String) : Nat :=
  countConsecutiveFailed ((recordsForJob db job_name).take 10)

/-- `CRUDJobExecutionHistory.is_job_paused`: the latest execution exists
and has status `"paused"` (Python: `latest_execution and
latest_execution.status == "paused"`). -/
def is_job_paused (db : HistoryDb) (job_name : String) : Bool :=
  match get_latest_execution db job_name with
  | none => false
  | some r => r.status == "paused"

/-- `CRUDJobExecutionHistory.cleanup_old_records`: delete every row whose
`job_name` equals the argument and whose `created_at` is strictly below
the cutoff (`utcnow() - months_to_keep * 30 days`, abstracted as the
parameter `cutoff`).  Returns the deleted count and the remaining store. -/
def cleanup_old_records (db : HistoryDb) (job_name : String) (cutoff : Nat) :
    Nat × HistoryDb :=
  let keep := db.filter (fun r => !(r.job_name == job_name && r.created_at < cutoff))
  (db.length - keep.length, keep)

/-- `countConsecutiveFailed` computes the length of the longest all-failed
head segment (`takeWhile`). -/
theorem countConsecutiveFailed_eq_takeWhile (l : List JobRecord) :
    countConsecutiveFailed l =
      (l.takeWhile (fun r => r.status == "failed")).length := by
  induction l with
  | nil => rfl
  | cons r rest ih =>
      by_cases h : r.status == "failed"
      · simp [countConsecutiveFailed, List.takeWhile, h, ih, Nat.add_comm]
      · simp [countConsecutiveFailed, List.takeWhile, h]

theorem countConsecutiveFailed_le_length (l : List JobRecord) :
    countConsecutiveFailed l ≤ l.length := by
  induction l with
  | nil => exact Nat.le_refl 0
  | cons r rest ih =>
      by_cases h : r.status == "failed"
      · simpa [countConsecutiveFailed, h] using Nat.succ_le_succ ih
      · simp [countConsecutiveFailed, h]

/-- C2: for every history state and job name, `consecutive_failures`
equals the number of `"failed"` records at the head of the job's records
in most-recent-first order — counting from the top and stopping at the
first non-`failed` record — with the scan bounded to the 10 most recent
records, so the value is at most 10. -/
theorem consecutive_failures_spec (db : HistoryDb) (job_name : String) :
    get_consecutive_failures db job_name =
      (((recordsForJob db job_name).take 10).takeWhile
        (fun r => r.status == "failed")).length ∧
    get_consecutive_failures db job_name ≤ 10 := by
  constructor
  · exact countConsecutiveFailed_eq_takeWhile _
  · calc get_consecutive_failures db job_name
        ≤ ((recordsForJob db job_name).take 10).length :=
          countConsecutiveFailed_le_length _
      _ ≤ 10 := by
          simp

/-! ## The retry executor (`_execute_with_retry`) -/

/-- The result payload of a successful body call, as read by
`_execute_with_retry` (`result.get("total_scraped", 0)`,
`result.get("total_saved_new", 0)`; the notification variant reads
`users_processed` / `notifications_sent` in the same two slots). -/
structure ScrapeResult where
  total_scraped : Nat := 0
  total_saved_new : Nat := 0
  deriving Repr, DecidableEq

/-- Outcome of one invocation of the job body
(`_call_corporate_events_scraper` / `_call_notification_processor`): a
normal return, or a raised exception with its message `str(e)`. -/
inductive AttemptResult where
  | success (result : ScrapeResult)
  | failure (msg : String)
  deriving Repr, DecidableEq

def AttemptResult.isSuccess : AttemptResult → Bool
  | .success _ => true
  | .failure _ => false

/-- Everything observable `_execute_with_retry` produces: the fields of
the final `JobExecutionHistoryUpdate` applied to the running record, the
sleeps performed (`asyncio.sleep(wait_time)` arguments, in order), how
many times the body was invoked, and the failure notifications sent
(message, `retry_count` argument of `_send_failure_notification`). -/
structure RetryOutcome where
  status : String
  retry_count : Nat
  error_message : Option String
  duration : Nat
  scraped_count : Option Nat
  saved_new_count : Option Nat
  attemptsMade : Nat
  waits : List Nat
  notices : List (String × Nat)
  deriving Repr, DecidableEq

/-- The `while retry_count <= max_retries:` loop of `_execute_with_retry`.
`retryCount` is the current `retry_count`, `elapsed` the wall clock since
`start_time`, `waits` the sleeps performed so far, and `remaining` the
number of retries the loop may still perform, i.e.
`remaining = max_retries - retry_count`; so `remaining = 0` exactly when
one more failure makes `retry_count > max_retries` (the source's terminal
test).  `attempt i` is the outcome of the `i`-th invocation of the job
body and `attemptDuration i` the wall-clock seconds that invocation takes;
`duration` at each record write is `time.time() - start_time`, i.e. the
accumulated body time plus sleep time. -/
def retryLoop (attempt : Nat → AttemptResult) (attemptDuration : Nat → Nat) :
    Nat → Nat → Nat → List Nat → RetryOutcome
  | remaining, retryCount, elapsed, waits =>
    match attempt retryCount with
    | .success res =>
        { status := "success", retry_count := retryCount, error_message := none,
          duration := elapsed + attemptDuration retryCount,
          scraped_count := some res.total_scraped,
          saved_new_count := some res.total_saved_new,
          attemptsMade := retryCount + 1, waits := waits, notices := [] }
    | .failure msg =>
        match remaining with
        | 0 =>
            { status := "failed", retry_count := retryCount + 1,
              error_message := some msg,
              duration := elapsed + attemptDuration retryCount,
              scraped_count := none, saved_new_count := none,
              attemptsMade := retryCount + 1, waits := waits,
              notices := [(msg, retryCount + 1)] }
        | m + 1 =>
            retryLoop attempt attemptDuration m (retryCount + 1)
              (elapsed + attemptDuration retryCount + 60 * (retryCount + 1))
              (waits ++ [60 * (retryCount + 1)])

/-- `_execute_with_retry`: enter the loop with `retry_count = 0`, nothing
elapsed, no sleeps performed; at most `max_retries` retries remain. -/
def executeWithRetry (maxRetries : Nat) (attempt : Nat → AttemptResult)
    (attemptDuration : Nat → Nat) : RetryOutcome :=
  retryLoop attempt attemptDuration maxRetries 0 0 []

theorem retryLoop_success (a : Nat → AttemptResult) (d : Nat → Nat)
    (rem rc e : Nat) (w : List Nat) (res : ScrapeResult)
    (h : a rc = .success res) :
    retryLoop a d rem rc e w =
      { status := "success", retry_count := rc, error_message := none,
        duration := e + d rc,
        scraped_count := some res.total_scraped,
        saved_new_count := some res.total_saved_new,
        attemptsMade := rc + 1, waits := w, notices := [] } := by
  rw [retryLoop, h]

theorem retryLoop_failure_zero (a : Nat → AttemptResult) (d : Nat → Nat)
    (rc e : Nat) (w : List Nat) (msg : String)
    (h : a rc = .failure msg) :
    retryLoop a d 0 rc e w =
      { status := "failed", retry_count := rc + 1, error_message := some msg,
        duration := e + d rc, scraped_count := none, saved_new_count := none,
        attemptsMade := rc + 1, waits := w, notices := [(msg, rc + 1)] } := by
  rw [retryLoop, h]

theorem retryLoop_failure_succ (a : Nat → AttemptResult) (d : Nat → Nat)
    (m rc e : Nat) (w : List Nat) (msg : String)
    (h : a rc = .failure msg) :
    retryLoop a d (m + 1) rc e w =
      retryLoop a d m (rc + 1) (e + d rc + 60 * (rc + 1))
        (w ++ [60 * (rc + 1)]) := by
  rw [retryLoop, h]

/-- Full characterisation of the retry loop, by induction on the number of
retries still allowed. -/
theorem retryLoop_spec (attempt : Nat → AttemptResult) (d : Nat → Nat) :
    ∀ (m r e : Nat) (w : List Nat),
      ∃ k, k ≤ m ∧
        (retryLoop attempt d m r e w).attemptsMade = r + k + 1 ∧
        (retryLoop attempt d m r e w).waits =
          w ++ (List.range k).map (fun i => 60 * (r + i + 1)) ∧
        (∀ i, i < k → (attempt (r + i)).isSuccess = false) ∧
        ((retryLoop attempt d m r e w).status = "success" ↔
          (attempt (r + k)).isSuccess = true) ∧
        (retryLoop attempt d m r e w).duration =
          e + ((List.range (k + 1)).map (fun i => d (r + i))).sum
            + ((List.range k).map (fun i => 60 * (r + i + 1))).sum ∧
        ((retryLoop attempt d m r e w).status = "success" →
          (retryLoop attempt d m r e w).retry_count = r + k ∧
          (retryLoop attempt d m r e w).error_message = none ∧
          (retryLoop attempt d m r e w).notices = []) ∧
        ((retryLoop attempt d m r e w).status ≠ "success" →
          (retryLoop attempt d m r e w).status = "failed" ∧ k = m ∧
          ∃ msg, attempt (r + m) = .failure msg ∧
            (retryLoop attempt d m r e w).error_message = some msg ∧
            (retryLoop attempt d m r e w).retry_count = r + m + 1 ∧
            (retryLoop attempt d m r e w).notices = [(msg, r + m + 1)]) := by
  intro m
  induction m with
  | zero =>
      intro r e w
      refine ⟨0, Nat.le_refl 0, ?_⟩
      cases h : attempt r with
      | success res =>
          rw [retryLoop_success attempt d 0 r e w res h]
          simp [h, AttemptResult.isSuccess, List.range_succ]
      | failure msg =>
          rw [retryLoop_failure_zero attempt d r e w msg h]
          simp [h, AttemptResult.isSuccess, List.range_succ]
  | succ m ih =>
      intro r e w
      cases h : attempt r with
      | success res =>
          refine ⟨0, Nat.zero_le _, ?_⟩
          rw [retryLoop_success attempt d (m + 1) r e w res h]
          simp [h, AttemptResult.isSuccess, List.range_succ]
      | failure msg =>
          obtain ⟨k, hk, h1, h2, h3, h4, h5, h6, h7⟩ :=
            ih (r + 1) (e + d r + 60 * (r + 1)) (w ++ [60 * (r + 1)])
          rw [retryLoop_failure_succ attempt d m r e w msg h]
          have peel : ∀ (f : Nat → Nat) (n : Nat),
              (List.range (n + 1)).map f =
                f 0 :: (List.range n).map (fun i => f (i + 1)) := by
            intro f n
            rw [List.range_succ_eq_map, List.map_cons, List.map_map]
            rfl
          refine ⟨k + 1, Nat.succ_le_succ hk, ?_, ?_, ?_, ?_, ?_, ?_, ?_⟩
          · rw [h1]; omega
          · rw [h2, peel (fun i => 60 * (r + i + 1)) k]
            have hmap : (List.range k).map (fun i => 60 * (r + (i + 1) + 1)) =
                (List.range k).map (fun i => 60 * (r + 1 + i + 1)) :=
              List.map_congr_left (fun i _ => by omega)
            rw [hmap]
            simp
          · intro i hi
            match i with
            | 0 => simp [h, AttemptResult.isSuccess]
            | Nat.succ j =>
                have hj := h3 j (by omega)
                have : r + 1 + j = r + (j + 1) := by omega
                rwa [this] at hj
          · have : r + (k + 1) = r + 1 + k := by omega
            rw [this]
            exact h4
          · rw [h5, peel (fun i => d (r + i)) (k + 1),
              peel (fun i => 60 * (r + i + 1)) k]
            simp only [List.sum_cons, Nat.add_zero]
            have e1 : ((List.range (k + 1)).map (fun i => d (r + (i + 1)))).sum =
                ((List.range (k + 1)).map (fun i => d (r + 1 + i))).sum := by
              congr 1
              apply List.map_congr_left
              intro i _
              congr 1
              omega
            have e2 : ((List.range k).map (fun i => 60 * (r + (i + 1) + 1))).sum =
                ((List.range k).map (fun i => 60 * (r + 1 + i + 1))).sum := by
              congr 1
              apply List.map_congr_left
              intro i _
              congr 1
              omega
            rw [e1, e2]
            omega
          · intro hs
            obtain ⟨ha, hb, hc⟩ := h6 hs
            refine ⟨by omega, hb, hc⟩
          · intro hs
            obtain ⟨ha, hb, msg2, hc, hd, he, hf⟩ := h7 hs
            refine ⟨ha, by omega, msg2, ?_, hd, by omega, ?_⟩
            · have : r + (m + 1) = r + 1 + m := by omega
              rw [this]
              exact hc
            · have : r + (m + 1) + 1 = r + 1 + m + 1 := by omega
              rw [this]
              exact hf

/-- C3: for every unit of work and every `max_retries`, the retry executor
performs at most `1 + max_retries` attempts (and at least one), all
attempts before the last one are failures and the run ends successfully
exactly when the last attempt succeeds (so it stops at the first success),
a run that does not succeed made exactly `max_retries + 1` attempts, and
the sleeps performed are exactly `60 * n` seconds before retry `n` for
`n = 1, …, attempts - 1` — in particular no sleep follows the final failed
attempt or a success. -/
theorem retry_executor_spec (maxRetries : Nat) (attempt : Nat → AttemptResult)
    (attemptDuration : Nat → Nat) :
    (executeWithRetry maxRetries attempt attemptDuration).attemptsMade ≤ maxRetries + 1 ∧
    1 ≤ (executeWithRetry maxRetries attempt attemptDuration).attemptsMade ∧
    (∀ i, i + 1 < (executeWithRetry maxRetries attempt attemptDuration).attemptsMade →
      (attempt i).isSuccess = false) ∧
    ((executeWithRetry maxRetries attempt attemptDuration).status = "success" ↔
      (attempt ((executeWithRetry maxRetries attempt attemptDuration).attemptsMade - 1)).isSuccess = true) ∧
    ((executeWithRetry maxRetries attempt attemptDuration).status ≠ "success" →
      (executeWithRetry maxRetries attempt attemptDuration).status = "failed" ∧
      (executeWithRetry maxRetries attempt attemptDuration).attemptsMade = maxRetries + 1) ∧
    (executeWithRetry maxRetries attempt attemptDuration).waits =
      (List.range ((executeWithRetry maxRetries attempt attemptDuration).attemptsMade - 1)).map
        (fun i => 60 * (i + 1)) := by
  obtain ⟨k, hk, h1, h2, h3, h4, h5, h6, h7⟩ :=
    retryLoop_spec attempt attemptDuration maxRetries 0 0 []
  have hzero : ∀ i : Nat, 0 + i = i := fun i => Nat.zero_add i
  rw [executeWithRetry] at *
  refine ⟨?_, ?_, ?_, ?_, ?_, ?_⟩
  · omega
  · omega
  · intro i hi
    have : i < k := by omega
    have := h3 i this
    rwa [hzero] at this
  · rw [h1]
    have : 0 + k + 1 - 1 = 0 + k := by omega
    rw [this]
    exact h4
  · intro hs
    obtain ⟨ha, hb, _, _, _, _, _⟩ := h7 hs
    constructor
    · exact ha
    · omega
  · rw [h2, h1]
    have : 0 + k + 1 - 1 = k := by omega
    rw [this, List.nil_append]
    apply List.map_congr_left
    intro i _
    omega

/-- C7 counterexample: with `max_retries = 3` and a body that fails every
time, the terminal `failed` record stores `retry_count = 4`, the total
attempt count, not the number of retries consumed (3). -/
theorem retry_count_terminal_counterexample :
    (executeWithRetry 3 (fun _ => .failure "boom") (fun _ => 0)).status = "failed" ∧
    (executeWithRetry 3 (fun _ => .failure "boom") (fun _ => 0)).retry_count = 4 ∧
    (executeWithRetry 3 (fun _ => .failure "boom") (fun _ => 0)).retry_count ≠ 3 := by
  refine ⟨rfl, rfl, by decide⟩

/-- C7 amended: when a run exhausts its retries (every attempt up to
attempt `max_retries` fails), the retry executor writes a terminal record
with status `failed`, carrying the last attempt's error message and the
total elapsed wall-clock duration (all body durations plus all backoff
sleeps), and the stored `retry_count` equals `max_retries + 1` — the total
attempt count, one more than the number of retries consumed. -/
theorem retry_exhaustion_record (maxRetries : Nat) (attempt : Nat → AttemptResult)
    (attemptDuration : Nat → Nat)
    (h : ∀ i, i ≤ maxRetries → (attempt i).isSuccess = false) :
    (executeWithRetry maxRetries attempt attemptDuration).status = "failed" ∧
    (executeWithRetry maxRetries attempt attemptDuration).retry_count = maxRetries + 1 ∧
    (∃ msg, attempt maxRetries = .failure msg ∧
      (executeWithRetry maxRetries attempt attemptDuration).error_message = some msg) ∧
    (executeWithRetry maxRetries attempt attemptDuration).duration =
      ((List.range (maxRetries + 1)).map attemptDuration).sum +
        ((List.range maxRetries).map (fun i => 60 * (i + 1))).sum := by
  obtain ⟨k, hk, h1, h2, h3, h4, h5, h6, h7⟩ :=
    retryLoop_spec attempt attemptDuration maxRetries 0 0 []
  rw [executeWithRetry] at *
  have hns : (retryLoop attempt attemptDuration maxRetries 0 0 []).status ≠ "success" := by
    intro hs
    have := h4.mp hs
    rw [h (0 + k) (by omega)] at this
    exact Bool.false_ne_true this
  obtain ⟨ha, hb, msg, hc, hd, he, _⟩ := h7 hns
  refine ⟨ha, by omega, ⟨msg, by simpa using hc, hd⟩, ?_⟩
  rw [h5, hb]
  have e1 : (List.range (maxRetries + 1)).map (fun i => attemptDuration (0 + i)) =
      (List.range (maxRetries + 1)).map attemptDuration :=
    List.map_congr_left (fun i _ => by rw [Nat.zero_add])
  have e2 : (List.range maxRetries).map (fun i => 60 * (0 + i + 1)) =
      (List.range maxRetries).map (fun i => 60 * (i + 1)) :=
    List.map_congr_left (fun i _ => by rw [Nat.zero_add])
  rw [e1, e2]
  omega

/-- Witness for the exhaustion record: `max_retries = 2`, a body that
always raises `"x"` and takes 1 second per attempt. -/
theorem retry_exhaustion_record_witness :
    (executeWithRetry 2 (fun _ => .failure "x") (fun _ => 1)).status = "failed" ∧
    (executeWithRetry 2 (fun _ => .failure "x") (fun _ => 1)).retry_count = 2 + 1 ∧
    (∃ msg, (fun _ => AttemptResult.failure "x") 2 = .failure msg ∧
      (executeWithRetry 2 (fun _ => .failure "x") (fun _ => 1)).error_message = some msg) ∧
    (executeWithRetry 2 (fun _ => .failure "x") (fun _ => 1)).duration =
      ((List.range (2 + 1)).map (fun _ => 1)).sum +
        ((List.range 2).map (fun i => 60 * (i + 1))).sum :=
  retry_exhaustion_record 2 (fun _ => .failure "x") (fun _ => 1) (fun _ _ => rfl)

/-! ## Strings: Python's `in` substring test and `str.lower()` -/

/-- Python's substring test `needle in hay`, on the character lists of the
two strings: `needle` is a prefix of `hay` or occurs in its tail.  The
empty needle is contained in every string, as in Python. -/
def isSubList (needle : List Char) : List Char → Bool
  | [] => needle.isPrefixOf []
  | c :: t => needle.isPrefixOf (c :: t) || isSubList needle t

/-- Python's `needle in hay` on strings. -/
def strContains (hay needle : String) : Bool := isSubList needle.data hay.data

/-- Python's `str.lower()`; `Char.toLower` covers the ASCII range used by
the repository's keywords and titles. -/
def pyLower (s : String) : String := ⟨s.data.map Char.toLower⟩

theorem isPrefixOf_append_self (n s : List Char) : n.isPrefixOf (n ++ s) = true := by
  induction n with
  | nil => simp [List.isPrefixOf]
  | cons c t ih => simp [List.isPrefixOf, ih]

theorem isSubList_of_isPrefixOf (n h : List Char) (hp : n.isPrefixOf h = true) :
    isSubList n h = true := by
  cases h with
  | nil => simpa [isSubList] using hp
  | cons c t => simp [isSubList, hp]

/-- Any explicit occurrence is found by `isSubList`. -/
theorem isSubList_append (p n s : List Char) :
    isSubList n (p ++ (n ++ s)) = true := by
  induction p with
  | nil =>
      rw [List.nil_append]
      exact isSubList_of_isPrefixOf n (n ++ s) (isPrefixOf_append_self n s)
  | cons c t ih =>
      rw [List.cons_append, isSubList, ih, Bool.or_true]

/-! ## The scheduler (`scheduler/job_scheduler.py`, `SchedulerManager`) -/

/-- The scheduler-facing state of `SchedulerManager`: the ids of the jobs
registered with APScheduler, the `_paused_jobs` set, and the pending
resume triggers added by `schedule_job_resume` — an association list from
the resume job's id (`f"{job_id}_resume"`) to its `run_date`
(`replace_existing=True` semantics). -/
structure SchedulerState where
  jobs : List String
  pausedJobs : List String
  resumes : List (String × Nat)
  deriving Repr, DecidableEq

/-- Association-list update with Python-`dict` / `replace_existing`
semantics: replace the value at the first occurrence of the key in place,
or append a new binding at the end. -/
def upsert {α : Type} (k : String) (v : α) : List (String × α) → List (String × α)
  | [] => [(k, v)]
  | p :: rest => if p.1 == k then (k, v) :: rest else p :: upsert k v rest

/-- `SchedulerManager.pause_job`: only acts when the job is registered
(`if self.scheduler.get_job(job_id)`), then suspends the trigger and adds
the id to `_paused_jobs`; returns whether it succeeded. -/
def pause_job (s : SchedulerState) (job_id : String) : Bool × SchedulerState :=
  if job_id ∈ s.jobs then
    (true, { s with pausedJobs := s.pausedJobs.insert job_id })
  else (false, s)

/-- `SchedulerManager.resume_job`: only acts when the job is registered;
removes the id from `_paused_jobs` (`discard`). -/
def resume_job (s : SchedulerState) (job_id : String) : Bool × SchedulerState :=
  if job_id ∈ s.jobs then
    (true, { s with pausedJobs := s.pausedJobs.erase job_id })
  else (false, s)

/-- `SchedulerManager.schedule_job_resume`: add a `DateTrigger` job with id
`f"{job_id}_resume"` running at `now + hours_delay` hours
(`replace_existing=True`). -/
def schedule_job_resume (s : SchedulerState) (job_id : String)
    (now hours_delay : Nat) : SchedulerState :=
  { s with resumes := upsert (job_id ++ "_resume") (now + hours_delay * 3600) s.resumes }

/-- `record_job_event`: insert a marker row with the given status, error
message and job name (the Python parameter defaults to
`"corporate_events_scraper"`; callers that pass no `job_name` are
translated with that literal). -/
def record_job_event (db : HistoryDb) (status : String)
    (error_message : Option String) (job_name : String) (now : Nat) : HistoryDb :=
  createRecord db
    { job_name := job_name, status := status, error_message := error_message,
      created_at := now }

/-- `SchedulerManager._resume_job_callback`: resume the trigger, then
record the resume event via `record_job_event(status="resumed",
error_message="任務已自動恢復")` — the call passes **no** `job_name`, so the
Python default `"corporate_events_scraper"` applies whatever `job_id` the
callback was scheduled for. -/
def resume_job_callback (s : SchedulerState) (db : HistoryDb)
    (job_id : String) (now : Nat) : SchedulerState × HistoryDb :=
  ((resume_job s job_id).2,
    record_job_event db "resumed" (some "任務已自動恢復") "corporate_events_scraper" now)

/-! ## The tick handlers (`scheduler/job_manager.py`) -/

/-- `error_message` of the pause marker written by
`_pause_job_due_to_failures`:
`f"連續失敗 {consecutive_failures} 次，任務已暫停，將於 6 小時後自動恢復"`. -/
def corporatePauseMessage (n : Nat) : String :=
  "連續失敗 " ++ toString n ++ " 次，任務已暫停，將於 6 小時後自動恢復"

/-- Message passed to `_send_failure_notification` by
`_pause_job_due_to_failures`: `f"任務連續失敗 {n} 次已暫停"`. -/
def corporatePauseNotice (n : Nat) : String :=
  "任務連續失敗 " ++ toString n ++ " 次已暫停"

/-- `error_message` of the pause marker written by
`_pause_notification_job_due_to_failures`. -/
def notificationPauseMessage (n : Nat) : String :=
  "通知任務連續失敗 " ++ toString n ++ " 次，任務已暫停，將於 6 小時後自動恢復"

/-- Message passed to `_send_notification_failure_notification` by
`_pause_notification_job_due_to_failures` (before its
`"Notification Job: "` wrapping). -/
def notificationPauseNotice (n : Nat) : String :=
  "通知任務連續失敗 " ++ n.repr ++ " 次已暫停"

/-- The `"running"` row created by `_create_execution_record` and then
updated in place by `_execute_with_retry`'s final
`JobExecutionHistoryUpdate`; the net row left in the store. -/
def finalExecutionRecord (job_name : String) (now : Nat) (o : RetryOutcome) :
    JobRecord :=
  { job_name := job_name, status := o.status, error_message := o.error_message,
    duration := some o.duration, scraped_count := o.scraped_count,
    saved_new_count := o.saved_new_count, retry_count := o.retry_count,
    created_at := now }

/-- Everything observable a tick of a job handler does: the history store
and scheduler state afterwards, whether the retry executor was engaged
(`_execute_with_retry` invoked, which entails creating a `"running"` row),
and the failure notifications sent. -/
structure TickResult where
  db : HistoryDb
  sched : SchedulerState
  ranBody : Bool
  failureNotices : List (String × Nat)
  deriving Repr, DecidableEq

/-- `execute_corporate_events_job`: clean up old rows first
(`cleanup_old_records(db)` — default job name, 3-month cutoff abstracted
as `cutoff`), then skip if paused, then pause the job if
`consecutive_failures >= settings.JOB_RETRY_MAX` (`maxRetries`), otherwise
create the running row and run `_execute_with_retry`. -/
def execute_corporate_events_job (db : HistoryDb) (sched : SchedulerState)
    (now cutoff maxRetries : Nat) (attempt : Nat → AttemptResult)
    (attemptDuration : Nat → Nat) : TickResult :=
  let db1 := (cleanup_old_records db "corporate_events_scraper" cutoff).2
  if is_job_paused db1 "corporate_events_scraper" then
    { db := db1, sched := sched, ranBody := false, failureNotices := [] }
  else
    let cf := get_consecutive_failures db1 "corporate_events_scraper"
    if maxRetries ≤ cf then
      -- `_pause_job_due_to_failures`
      let s1 := (pause_job sched "corporate_events_scraper").2
      let s2 := schedule_job_resume s1 "corporate_events_scraper" now 6
      -- `record_job_event(status="paused", ...)` passes no `job_name`,
      -- so the default `"corporate_events_scraper"` applies
      let db2 := record_job_event db1 "paused"
        (some (corporatePauseMessage cf)) "corporate_events_scraper" now
      { db := db2, sched := s2, ranBody := false,
        failureNotices := [(corporatePauseNotice cf, cf)] }
    else
      let o := executeWithRetry maxRetries attempt attemptDuration
      { db := finalExecutionRecord "corporate_events_scraper" now o :: db1,
        sched := sched, ranBody := true, failureNotices := o.notices }

/-- `execute_notification_job`: textually mirrors the scraper tick with
job name `"notification_processor"` — except that its cleanup call
`cleanup_old_records(db)` passes no job name, so it also cleans
`"corporate_events_scraper"` rows. -/
def execute_notification_job (db : HistoryDb) (sched : SchedulerState)
    (now cutoff maxRetries : Nat) (attempt : Nat → AttemptResult)
    (attemptDuration : Nat → Nat) : TickResult :=
  let db1 := (cleanup_old_records db "corporate_events_scraper" cutoff).2
  if is_job_paused db1 "notification_processor" then
    { db := db1, sched := sched, ranBody := false, failureNotices := [] }
  else
    let cf := get_consecutive_failures db1 "notification_processor"
    if maxRetries ≤ cf then
      -- `_pause_notification_job_due_to_failures`
      let s1 := (pause_job sched "notification_processor").2
      let s2 := schedule_job_resume s1 "notification_processor" now 6
      let db2 := record_job_event db1 "paused"
        (some (notificationPauseMessage cf)) "notification_processor" now
      { db := db2, sched := s2, ranBody := false,
        failureNotices := [("Notification Job: " ++ notificationPauseNotice cf, cf)] }
    else
      let o := executeWithRetry maxRetries attempt attemptDuration
      { db := finalExecutionRecord "notification_processor" now o :: db1,
        sched := sched, ranBody := true,
        failureNotices := o.notices.map (fun p => ("Notification Job: " ++ p.1, p.2)) }

/-! ## Supporting lemmas for the tick theorems -/

theorem head_failed_of_count (l : List JobRecord) (n : Nat)
    (h : 1 ≤ countConsecutiveFailed (l.take n)) :
    ∃ r rest, l = r :: rest ∧ (r.status == "failed") = true := by
  cases l with
  | nil => simp [countConsecutiveFailed] at h
  | cons r rest =>
      cases n with
      | zero => simp [countConsecutiveFailed] at h
      | succ m =>
          by_cases hs : (r.status == "failed") = true
          · exact ⟨r, rest, rfl, hs⟩
          · rw [List.take_succ_cons] at h
            simp [countConsecutiveFailed, hs] at h

/-- A job with at least one consecutive failure on record is not paused:
its latest record has status `"failed"`. -/
theorem is_job_paused_false_of_failures (db : HistoryDb) (j : String)
    (h : 1 ≤ get_consecutive_failures db j) : is_job_paused db j = false := by
  rw [get_consecutive_failures] at h
  obtain ⟨r, rest, hl, hs⟩ := head_failed_of_count _ _ h
  have hr : r.status = "failed" := by simpa using hs
  rw [is_job_paused, get_latest_execution, hl]
  simp [hr]

theorem mem_upsert_self {α : Type} (k : String) (v : α) (l : List (String × α)) :
    (k, v) ∈ upsert k v l := by
  induction l with
  | nil => simp [upsert]
  | cons p rest ih =>
      by_cases h : (p.1 == k) = true
      · simp [upsert, h]
      · simp only [upsert, h, Bool.false_eq_true, if_false]
        exact List.mem_cons_of_mem p ih

/-- An explicitly concatenated-in needle is found by `strContains`. -/
theorem strContains_append (a b c : String) :
    strContains (a ++ b ++ c) b = true := by
  rw [strContains, String.data_append, String.data_append, List.append_assoc]
  exact isSubList_append a.data b.data c.data

theorem notif_ne_corp :
    ("notification_processor" : String) ≠ "corporate_events_scraper" := by decide

/-- Retention cleanup for one job name leaves the records of every other
job name untouched. -/
theorem recordsForJob_cleanup_ne (db : HistoryDb) (j j2 : String) (cutoff : Nat)
    (h : j2 ≠ j) :
    recordsForJob (cleanup_old_records db j cutoff).2 j2 = recordsForJob db j2 := by
  rw [cleanup_old_records, recordsForJob, recordsForJob]
  induction db with
  | nil => rfl
  | cons r rest ih =>
      by_cases h2 : (r.job_name == j2) = true
      · have hrj : r.job_name = j2 := by simpa using h2
        have hne : (r.job_name == j) = false := by
          simp [hrj]
          exact h
        simp only [List.filter_cons, hne, Bool.false_and, Bool.not_false, if_pos]
        simp only [h2, if_pos]
        rw [ih]
      · by_cases h3 : (!(r.job_name == j && decide (r.created_at < cutoff))) = true
        · simp only [List.filter_cons, h3, if_pos]
          simp only [h2, Bool.false_eq_true, if_false]
          exact ih
        · simp only [List.filter_cons, h3, Bool.false_eq_true, if_false]
          simp only [h2, Bool.false_eq_true, if_false]
          exact ih

/-- C1: at the start of a scheduled tick, when the consecutive-failure
count observed after the retention cleanup has reached the failure
threshold (`settings.JOB_RETRY_MAX ≥ 1`), the tick handler does not invoke
the retry executor — no running record is created and the job body is
never called — and performs the pause transition: the scheduler trigger is
suspended (whenever the job is registered), an automatic resume is
scheduled for `now` plus the fixed 6-hour cooldown, a `paused` marker
record whose error message contains the failure count is written, and the
failure notifier is invoked with the failure count. -/
theorem pause_transition_spec (db : HistoryDb) (sched : SchedulerState)
    (now cutoff maxRetries : Nat) (attempt : Nat → AttemptResult)
    (attemptDuration : Nat → Nat)
    (hmax : 1 ≤ maxRetries)
    (hcf : maxRetries ≤ get_consecutive_failures
      (cleanup_old_records db "corporate_events_scraper" cutoff).2
      "corporate_events_scraper") :
    (execute_corporate_events_job db sched now cutoff maxRetries attempt attemptDuration).ranBody
      = false ∧
    (execute_corporate_events_job db sched now cutoff maxRetries attempt attemptDuration).db =
      { job_name := "corporate_events_scraper", status := "paused",
        error_message := some (corporatePauseMessage
          (get_consecutive_failures
            (cleanup_old_records db "corporate_events_scraper" cutoff).2
            "corporate_events_scraper")),
        created_at := now } ::
        (cleanup_old_records db "corporate_events_scraper" cutoff).2 ∧
    (∀ n : Nat, strContains (corporatePauseMessage n) (toString n) = true) ∧
    ("corporate_events_scraper" ∈ sched.jobs →
      "corporate_events_scraper" ∈
        (execute_corporate_events_job db sched now cutoff maxRetries attempt attemptDuration).sched.pausedJobs) ∧
    ("corporate_events_scraper_resume", now + 6 * 3600) ∈
      (execute_corporate_events_job db sched now cutoff maxRetries attempt attemptDuration).sched.resumes ∧
    (execute_corporate_events_job db sched now cutoff maxRetries attempt attemptDuration).failureNotices =
      [(corporatePauseNotice (get_consecutive_failures
          (cleanup_old_records db "corporate_events_scraper" cutoff).2
          "corporate_events_scraper"),
        get_consecutive_failures
          (cleanup_old_records db "corporate_events_scraper" cutoff).2
          "corporate_events_scraper")] := by
  have hpf : is_job_paused
      (cleanup_old_records db "corporate_events_scraper" cutoff).2
      "corporate_events_scraper" = false :=
    is_job_paused_false_of_failures _ _ (Nat.le_trans hmax hcf)
  simp only [execute_corporate_events_job, hpf, Bool.false_eq_true, if_false,
    if_pos hcf]
  refine ⟨trivial, ?_, ?_, ?_, ?_, trivial⟩
  · rw [record_job_event, createRecord]
  · intro n
    exact strContains_append "連續失敗 " (toString n)
      " 次，任務已暫停，將於 6 小時後自動恢復"
  · intro hj
    simp only [schedule_job_resume, pause_job, if_pos hj]
    exact List.mem_insert_self _ _
  · have hkey : ("corporate_events_scraper" ++ "_resume" : String) =
        "corporate_events_scraper_resume" := rfl
    simp only [schedule_job_resume, hkey]
    exact mem_upsert_self _ _ _

/-- Concrete store for witnesses: three consecutive failed runs of the
scraper job. -/
def threeFailuresDb : HistoryDb :=
  [{ job_name := "corporate_events_scraper", status := "failed",
     error_message := some "e3", created_at := 300 },
   { job_name := "corporate_events_scraper", status := "failed",
     error_message := some "e2", created_at := 200 },
   { job_name := "corporate_events_scraper", status := "failed",
     error_message := some "e1", created_at := 100 }]

/-- Scheduler with both repository jobs registered and nothing paused. -/
def bothJobsSched : SchedulerState :=
  { jobs := ["corporate_events_scraper", "notification_processor"],
    pausedJobs := [], resumes := [] }

/-- Witness: three recorded failures against a threshold of 3 trigger the
pause transition on the next tick. -/
theorem pause_transition_spec_witness :
    (1 ≤ 3 ∧
      3 ≤ get_consecutive_failures
        (cleanup_old_records threeFailuresDb "corporate_events_scraper" 50).2
        "corporate_events_scraper") ∧
    (execute_corporate_events_job threeFailuresDb bothJobsSched 1000 50 3
        (fun _ => .failure "e") (fun _ => 0)).ranBody = false ∧
    "corporate_events_scraper" ∈
      (execute_corporate_events_job threeFailuresDb bothJobsSched 1000 50 3
        (fun _ => .failure "e") (fun _ => 0)).sched.pausedJobs ∧
    ("corporate_events_scraper_resume", 1000 + 6 * 3600) ∈
      (execute_corporate_events_job threeFailuresDb bothJobsSched 1000 50 3
        (fun _ => .failure "e") (fun _ => 0)).sched.resumes := by
  have h := pause_transition_spec threeFailuresDb bothJobsSched 1000 50 3
    (fun _ => .failure "e") (fun _ => 0) (by decide) (by decide)
  exact ⟨⟨by decide, by decide⟩, h.1, h.2.2.2.1 (by decide), h.2.2.2.2.1⟩

/-- C4 counterexample: a tick of a paused job is *not* free of history
mutations, and the pause check is *not* the very first action — the
retention cleanup runs first and deletes an old record even though the
latest record is the `paused` marker. -/
theorem paused_tick_mutates_counterexample :
    is_job_paused
      [{ job_name := "corporate_events_scraper", status := "paused", created_at := 100 },
       { job_name := "corporate_events_scraper", status := "failed", created_at := 0 }]
      "corporate_events_scraper" = true ∧
    (execute_corporate_events_job
      [{ job_name := "corporate_events_scraper", status := "paused", created_at := 100 },
       { job_name := "corporate_events_scraper", status := "failed", created_at := 0 }]
      { jobs := [], pausedJobs := [], resumes := [] } 200 50 3
      (fun _ => .failure "e") (fun _ => 0)).ranBody = false ∧
    (execute_corporate_events_job
      [{ job_name := "corporate_events_scraper", status := "paused", created_at := 100 },
       { job_name := "corporate_events_scraper", status := "failed", created_at := 0 }]
      { jobs := [], pausedJobs := [], resumes := [] } 200 50 3
      (fun _ => .failure "e") (fun _ => 0)).db ≠
      [{ job_name := "corporate_events_scraper", status := "paused", created_at := 100 },
       { job_name := "corporate_events_scraper", status := "failed", created_at := 0 }] ∧
    (execute_corporate_events_job
      [{ job_name := "corporate_events_scraper", status := "paused", created_at := 100 },
       { job_name := "corporate_events_scraper", status := "failed", created_at := 0 }]
      { jobs := [], pausedJobs := [], resumes := [] } 200 50 3
      (fun _ => .failure "e") (fun _ => 0)).db =
      [{ job_name := "corporate_events_scraper", status := "paused", created_at := 100 }] := by
  refine ⟨rfl, rfl, by decide, rfl⟩

/-- C4 amended: while a job is paused (the latest history record after the
retention cleanup has status `paused`), a scheduled tick performs no
retry-executor invocation, creates or updates no record, leaves the
scheduler untouched and sends no notification; the only history mutation
of such a tick is the retention cleanup itself, which runs *before* the
pause check — the pause check is the first action after that cleanup. -/
theorem paused_tick_skips (db : HistoryDb) (sched : SchedulerState)
    (now cutoff maxRetries : Nat) (attempt : Nat → AttemptResult)
    (attemptDuration : Nat → Nat)
    (h : is_job_paused (cleanup_old_records db "corporate_events_scraper" cutoff).2
      "corporate_events_scraper" = true) :
    (execute_corporate_events_job db sched now cutoff maxRetries attempt attemptDuration).ranBody
      = false ∧
    (execute_corporate_events_job db sched now cutoff maxRetries attempt attemptDuration).db =
      (cleanup_old_records db "corporate_events_scraper" cutoff).2 ∧
    (execute_corporate_events_job db sched now cutoff maxRetries attempt attemptDuration).sched
      = sched ∧
    (execute_corporate_events_job db sched now cutoff maxRetries attempt attemptDuration).failureNotices
      = [] := by
  simp only [execute_corporate_events_job, h, if_true]
  exact ⟨trivial, trivial, trivial, trivial⟩

/-- Witness: a store whose only scraper record is the paused marker. -/
theorem paused_tick_skips_witness :
    is_job_paused
      (cleanup_old_records
        [{ job_name := "corporate_events_scraper", status := "paused", created_at := 100 }]
        "corporate_events_scraper" 50).2 "corporate_events_scraper" = true ∧
    (execute_corporate_events_job
      [{ job_name := "corporate_events_scraper", status := "paused", created_at := 100 }]
      bothJobsSched 200 50 3 (fun _ => .failure "e") (fun _ => 0)).ranBody = false ∧
    (execute_corporate_events_job
      [{ job_name := "corporate_events_scraper", status := "paused", created_at := 100 }]
      bothJobsSched 200 50 3 (fun _ => .failure "e") (fun _ => 0)).db =
      (cleanup_old_records
        [{ job_name := "corporate_events_scraper", status := "paused", created_at := 100 }]
        "corporate_events_scraper" 50).2 := by
  have h := paused_tick_skips
    [{ job_name := "corporate_events_scraper", status := "paused", created_at := 100 }]
    bothJobsSched 200 50 3 (fun _ => .failure "e") (fun _ => 0) (by decide)
  exact ⟨by decide, h.1, h.2.1⟩

/-- C8: the scheduled resume callback records its `resumed` marker through
`record_job_event` without passing a job name, so — whatever job id it was
scheduled for — the marker is written under the default
`"corporate_events_scraper"`.  Consequently, after the notification job is
auto-resumed, no `resumed` record appears under
`"notification_processor"`: its records are exactly as before, its latest
record is still the `paused` marker, `is_job_paused` stays true, and its
subsequent ticks are still skipped (no retry executor, no mutation beyond
the cleanup). -/
theorem resume_callback_default_job_name (sched : SchedulerState)
    (db : HistoryDb) (now : Nat)
    (hpaused : is_job_paused db "notification_processor" = true) :
    (∀ job_id : String,
      ((resume_job_callback sched db job_id now).2.head?.map JobRecord.job_name) =
        some "corporate_events_scraper") ∧
    recordsForJob (resume_job_callback sched db "notification_processor" now).2
      "notification_processor" = recordsForJob db "notification_processor" ∧
    is_job_paused (resume_job_callback sched db "notification_processor" now).2
      "notification_processor" = true ∧
    (∀ (sched2 : SchedulerState) (cutoff maxRetries : Nat)
        (attempt : Nat → AttemptResult) (attemptDuration : Nat → Nat),
      (execute_notification_job (resume_job_callback sched db "notification_processor" now).2
        sched2 now cutoff maxRetries attempt attemptDuration).ranBody = false ∧
      (execute_notification_job (resume_job_callback sched db "notification_processor" now).2
        sched2 now cutoff maxRetries attempt attemptDuration).db =
        (cleanup_old_records (resume_job_callback sched db "notification_processor" now).2
          "corporate_events_scraper" cutoff).2) := by
  have hrec : recordsForJob (resume_job_callback sched db "notification_processor" now).2
      "notification_processor" = recordsForJob db "notification_processor" := by
    simp only [resume_job_callback, record_job_event, createRecord, recordsForJob,
      List.filter_cons]
    rw [if_neg]
    simp only [beq_iff_eq]
    intro hne
    exact notif_ne_corp hne.symm
  have hstillPaused : is_job_paused (resume_job_callback sched db "notification_processor" now).2
      "notification_processor" = true := by
    rw [is_job_paused, get_latest_execution, hrec]
    rw [is_job_paused, get_latest_execution] at hpaused
    exact hpaused
  refine ⟨fun job_id => rfl, hrec, hstillPaused, ?_⟩
  intro sched2 cutoff maxRetries attempt attemptDuration
  have hcleanPaused : is_job_paused
      (cleanup_old_records (resume_job_callback sched db "notification_processor" now).2
        "corporate_events_scraper" cutoff).2 "notification_processor" = true := by
    rw [is_job_paused, get_latest_execution,
      recordsForJob_cleanup_ne _ _ _ _ notif_ne_corp]
    rw [is_job_paused, get_latest_execution] at hstillPaused
    exact hstillPaused
  simp only [execute_notification_job, hcleanPaused, if_true]
  exact ⟨trivial, trivial⟩

/-- Store for the C8 witness: the notification job has been paused (its
latest record is the `paused` marker). -/
def pausedNotificationDb : HistoryDb :=
  [{ job_name := "notification_processor", status := "paused",
     error_message := some "通知任務連續失敗 3 次，任務已暫停，將於 6 小時後自動恢復",
     created_at := 400 },
   { job_name := "notification_processor", status := "failed",
     error_message := some "boom", created_at := 300 }]

/-- Witness: auto-resuming the paused notification job leaves it paused in
the history store and its next tick is still skipped. -/
theorem resume_callback_default_job_name_witness :
    is_job_paused pausedNotificationDb "notification_processor" = true ∧
    ((resume_job_callback bothJobsSched pausedNotificationDb "notification_processor" 500).2.head?.map
      JobRecord.job_name) = some "corporate_events_scraper" ∧
    is_job_paused (resume_job_callback bothJobsSched pausedNotificationDb "notification_processor" 500).2
      "notification_processor" = true ∧
    (execute_notification_job
      (resume_job_callback bothJobsSched pausedNotificationDb "notification_processor" 500).2
      bothJobsSched 500 0 3 (fun _ => .failure "e") (fun _ => 0)).ranBody = false := by
  have h := resume_callback_default_job_name bothJobsSched pausedNotificationDb 500 (by decide)
  exact ⟨by decide, h.1 "notification_processor", h.2.2.1,
    (h.2.2.2 bothJobsSched 0 3 (fun _ => .failure "e") (fun _ => 0)).1⟩

/-- C10: the retention cleanup deletes only rows of the job name it is
given; and because both tick handlers invoke it with the default
`"corporate_events_scraper"`, the records of `"notification_processor"`
survive the cleanup of every job cycle — each tick's resulting store still
contains all previous `notification_processor` records (as a suffix of
that job's recency-ordered records). -/
theorem cleanup_scope_spec :
    (∀ (db : HistoryDb) (j j2 : String) (cutoff : Nat), j2 ≠ j →
      recordsForJob (cleanup_old_records db j cutoff).2 j2 = recordsForJob db j2) ∧
    (∀ (db : HistoryDb) (sched : SchedulerState) (now cutoff maxRetries : Nat)
        (attempt : Nat → AttemptResult) (attemptDuration : Nat → Nat),
      recordsForJob db "notification_processor" <:+
        recordsForJob
          (execute_corporate_events_job db sched now cutoff maxRetries attempt attemptDuration).db
          "notification_processor") ∧
    (∀ (db : HistoryDb) (sched : SchedulerState) (now cutoff maxRetries : Nat)
        (attempt : Nat → AttemptResult) (attemptDuration : Nat → Nat),
      recordsForJob db "notification_processor" <:+
        recordsForJob
          (execute_notification_job db sched now cutoff maxRetries attempt attemptDuration).db
          "notification_processor") := by
  have hclean : ∀ (db : HistoryDb) (cutoff : Nat),
      recordsForJob (cleanup_old_records db "corporate_events_scraper" cutoff).2
        "notification_processor" = recordsForJob db "notification_processor" :=
    fun db cutoff => recordsForJob_cleanup_ne db _ _ cutoff notif_ne_corp
  have hcorpcons : ∀ (r : JobRecord) (l : HistoryDb),
      r.job_name = "corporate_events_scraper" →
      recordsForJob (r :: l) "notification_processor" =
        recordsForJob l "notification_processor" := by
    intro r l hr
    rw [recordsForJob, List.filter_cons, if_neg]
    · rfl
    · simp only [beq_iff_eq, hr]
      intro hne
      exact notif_ne_corp hne.symm
  refine ⟨fun db j j2 cutoff h => recordsForJob_cleanup_ne db j j2 cutoff h, ?_, ?_⟩
  · intro db sched now cutoff maxRetries attempt attemptDuration
    rw [execute_corporate_events_job]
    by_cases h1 : is_job_paused (cleanup_old_records db "corporate_events_scraper" cutoff).2
        "corporate_events_scraper" = true
    · simp only [h1, if_true]
      rw [hclean]
    · simp only [h1, Bool.false_eq_true] at h1 ⊢
      simp only [h1, if_false]
      by_cases h2 : maxRetries ≤ get_consecutive_failures
          (cleanup_old_records db "corporate_events_scraper" cutoff).2
          "corporate_events_scraper"
      · simp only [if_pos h2]
        rw [record_job_event, createRecord, hcorpcons _ _ rfl, hclean]
      · simp only [if_neg h2]
        rw [hcorpcons _ _ rfl, hclean]
  · intro db sched now cutoff maxRetries attempt attemptDuration
    have hnotifcons : ∀ (r : JobRecord) (l : HistoryDb),
        r.job_name = "notification_processor" →
        recordsForJob (r :: l) "notification_processor" =
          r :: recordsForJob l "notification_processor" := by
      intro r l hr
      rw [recordsForJob, List.filter_cons, if_pos]
      · rfl
      · simp [hr]
    rw [execute_notification_job]
    by_cases h1 : is_job_paused (cleanup_old_records db "corporate_events_scraper" cutoff).2
        "notification_processor" = true
    · simp only [h1, if_true]
      rw [hclean]
    · simp only [h1, Bool.false_eq_true] at h1 ⊢
      simp only [h1, if_false]
      by_cases h2 : maxRetries ≤ get_consecutive_failures
          (cleanup_old_records db "corporate_events_scraper" cutoff).2
          "notification_processor"
      · simp only [if_pos h2]
        rw [record_job_event, createRecord, hnotifcons _ _ rfl, hclean]
        exact List.suffix_cons _ _
      · simp only [if_neg h2]
        rw [hnotifcons _ _ rfl, hclean]
        exact List.suffix_cons _ _

/-- Witness for the cleanup frame property: an old `notification_processor`
row survives a cleanup of `"corporate_events_scraper"` rows. -/
theorem cleanup_scope_spec_witness :
    ("notification_processor" : String) ≠ "corporate_events_scraper" ∧
    recordsForJob
      (cleanup_old_records
        [{ job_name := "notification_processor", status := "failed", created_at := 0 },
         { job_name := "corporate_events_scraper", status := "failed", created_at := 0 }]
        "corporate_events_scraper" 50).2 "notification_processor" =
      recordsForJob
        [{ job_name := "notification_processor", status := "failed", created_at := 0 },
         { job_name := "corporate_events_scraper", status := "failed", created_at := 0 }]
        "notification_processor" := by
  refine ⟨by decide, ?_⟩
  exact cleanup_scope_spec.1
    [{ job_name := "notification_processor", status := "failed", created_at := 0 },
     { job_name := "corporate_events_scraper", status := "failed", created_at := 0 }]
    "corporate_events_scraper" "notification_processor" 50 (by decide)

/-! ## The notification matcher (`app/jobs/notification_job.py`,
`process_and_notify_users`) -/

/-- One user notification setting as returned by the
`/admin/notify-settings` API (`email_address`, `keywords`, `is_active`;
`user_setting.get("email_address")` may be absent → `none`). -/
structure UserSetting where
  email_address : Option String := none
  keywords : List String := []
  is_active : Bool := false
  deriving Repr, DecidableEq

/-- One scraped event as returned by `/scraped-events/unprocessed`
(`models/scraped_event.py`: `id`, `title`, `is_processed`). -/
structure EventItem where
  id : Nat
  title : String
  is_processed : Bool := false
  deriving Repr, DecidableEq

/-- The inner `for keyword in user_keywords` loop with its `break`: the
event matches when some keyword satisfies
`keyword.lower() in event_title.lower()`. -/
def eventMatched (keywords : List String) (title : String) : Bool :=
  keywords.any (fun k => isSubList (pyLower k).data (pyLower title).data)

/-- `processed_event_ids.add(event_id)` — set insertion. -/
def insertId (s : List Nat) (i : Nat) : List Nat :=
  if i ∈ s then s else s ++ [i]

/-- One iteration of the `for event in unprocessed_events` loop: on a
keyword match, append the title to this user's `matched_events`, add the
id to the shared `processed_event_ids`, and break out of the keyword
loop. -/
def processEventsStep (keywords : List String)
    (acc : List String × List Nat) (e : EventItem) : List String × List Nat :=
  if eventMatched keywords e.title then
    (acc.1 ++ [e.title], insertId acc.2 e.id)
  else acc

/-- The per-user event loop: starts from a fresh `matched_events` list and
the shared set of processed ids accumulated so far. -/
def processEvents (keywords : List String) (events : List EventItem)
    (pids : List Nat) : List String × List Nat :=
  events.foldl (processEventsStep keywords) ([], pids)

/-- Python truthiness of `user_email`: both `None` and `""` are skipped by
`if not is_active or not user_email: continue`. -/
def truthyEmail : Option String → Bool
  | none => false
  | some s => !(s == "")

/-- One iteration of the `for user_setting in all_user_settings` loop:
skip inactive users and users without an email; otherwise run the event
loop and, when anything matched, write this user's matched titles into
`notifications_to_send[user_email]` (dict assignment — overwriting any
entry a previous user with the same address produced). -/
def processUsersStep (events : List EventItem)
    (acc : List (String × List String) × List Nat) (u : UserSetting) :
    List (String × List String) × List Nat :=
  if u.is_active && truthyEmail u.email_address then
    if (processEvents u.keywords events acc.2).1.isEmpty then
      (acc.1, (processEvents u.keywords events acc.2).2)
    else
      (upsert (u.email_address.getD "") (processEvents u.keywords events acc.2).1 acc.1,
        (processEvents u.keywords events acc.2).2)
  else acc

/-- The matching phase of `process_and_notify_users`: builds
`notifications_to_send` (association list email → matched titles, in dict
order) and `processed_event_ids`. -/
def processUsers (us : List UserSetting) (events : List EventItem) :
    List (String × List String) × List Nat :=
  us.foldl (processUsersStep events) ([], [])

/-- Result of one full run of `process_and_notify_users`: the emails sent
(one per entry of `notifications_to_send`, with the title list used as the
body) and the event store after `_update_processed_events`. -/
structure NotifyRunResult where
  emailsSent : List (String × List String)
  events : List EventItem
  deriving Repr, DecidableEq

/-- `_get_unprocessed_events`: the `/scraped-events/unprocessed` fetch —
`crud_scraped_event.get_unprocessed_events(db, skip=0, limit=100)`; the
endpoint caps `limit` at 100, and the job requests exactly 100. -/
def fetchUnprocessed (events : List EventItem) : List EventItem :=
  (events.filter (fun e => !e.is_processed)).take 100

/-- `process_and_notify_users`: return early when there are no user
settings or no unprocessed events; otherwise match and send one email per
`notifications_to_send` entry, then run `_update_processed_events` over
`processed_event_ids`.  That marking step never changes the store: for
each id it PUTs `/scraped-events/{id}/processed`, whose handler
(`mark_event_as_processed`) calls
`crud_scraped_event.update_processed_status` — a function defined nowhere
in `crud/crud_scraped_event.py` (or anywhere else in the repository) — so
every call raises, the endpoint answers 500, `raise_for_status()` raises
in the job and the per-event `except` swallows it.  Nothing else in the
repository ever sets `is_processed`, hence the store comes back
unchanged. -/
def process_and_notify_users (us : List UserSetting) (events : List EventItem) :
    NotifyRunResult :=
  if us.isEmpty then { emailsSent := [], events := events }
  else if (fetchUnprocessed events).isEmpty then { emailsSent := [], events := events }
  else
    { emailsSent := (processUsers us (fetchUnprocessed events)).1,
      events := events }

/-! ### Lemmas about the matching loops -/

theorem processEvents_fst (keywords : List String) :
    ∀ (events : List EventItem) (acc : List String × List Nat),
      (events.foldl (processEventsStep keywords) acc).1 =
        acc.1 ++ (events.filter (fun e => eventMatched keywords e.title)).map
          EventItem.title := by
  intro events
  induction events with
  | nil => intro acc; simp
  | cons e rest ih =>
      intro acc
      rw [List.foldl_cons, ih, List.filter_cons]
      by_cases h : eventMatched keywords e.title = true
      · simp only [h, if_pos, processEventsStep, if_true, List.map_cons]
        rw [List.append_assoc]
        rfl
      · simp [processEventsStep, h]

theorem insertId_mem (s : List Nat) (i j : Nat) :
    j ∈ insertId s i ↔ j ∈ s ∨ j = i := by
  rw [insertId]
  by_cases h : i ∈ s
  · rw [if_pos h]
    constructor
    · exact fun hj => Or.inl hj
    · rintro (hj | rfl)
      · exact hj
      · exact h
  · rw [if_neg h]
    simp [List.mem_append]

theorem processEvents_snd_mem (keywords : List String) :
    ∀ (events : List EventItem) (acc : List String × List Nat) (i : Nat),
      i ∈ (events.foldl (processEventsStep keywords) acc).2 ↔
        i ∈ acc.2 ∨ ∃ e, e ∈ events ∧ eventMatched keywords e.title = true ∧ e.id = i := by
  intro events
  induction events with
  | nil => intro acc i; simp
  | cons e rest ih =>
      intro acc i
      rw [List.foldl_cons, ih]
      by_cases h : eventMatched keywords e.title = true
      · simp only [processEventsStep, h, if_true, insertId_mem]
        constructor
        · rintro ((hi | rfl) | ⟨e2, he2, hm, hid⟩)
          · exact Or.inl hi
          · exact Or.inr ⟨e, List.mem_cons_self e rest, h, rfl⟩
          · exact Or.inr ⟨e2, List.mem_cons_of_mem e he2, hm, hid⟩
        · rintro (hi | ⟨e2, he2, hm, hid⟩)
          · exact Or.inl (Or.inl hi)
          · rcases List.mem_cons.mp he2 with rfl | he2r
            · exact Or.inl (Or.inr hid.symm)
            · exact Or.inr ⟨e2, he2r, hm, hid⟩
      · simp only [processEventsStep, h, Bool.false_eq_true, if_false]
        constructor
        · rintro (hi | ⟨e2, he2, hm, hid⟩)
          · exact Or.inl hi
          · exact Or.inr ⟨e2, List.mem_cons_of_mem e he2, hm, hid⟩
        · rintro (hi | ⟨e2, he2, hm, hid⟩)
          · exact Or.inl hi
          · rcases List.mem_cons.mp he2 with rfl | he2r
            · exact absurd hm h
            · exact Or.inr ⟨e2, he2r, hm, hid⟩

/-- C5: an item is recorded as matched for a subscription exactly when
some keyword's lowercase form is a substring of the item title's lowercase
form, each item contributing at most one entry per subscription (the
keyword loop breaks at the first matching keyword — the per-subscription
matched list is one filtered/mapped pass over the items); keyword
`"python"` matches title `"Python Workshop"`, and a subscription with an
empty keyword set matches nothing. -/
theorem keyword_matching_spec :
    (∀ (keywords : List String) (events : List EventItem) (pids : List Nat),
      (processEvents keywords events pids).1 =
        (events.filter (fun e => eventMatched keywords e.title)).map
          EventItem.title) ∧
    (∀ (keywords : List String) (title : String),
      eventMatched keywords title = true ↔
        ∃ k, k ∈ keywords ∧ isSubList (pyLower k).data (pyLower title).data = true) ∧
    eventMatched ["python"] "Python Workshop" = true ∧
    (∀ (events : List EventItem) (pids : List Nat),
      (processEvents [] events pids).1 = []) := by
  refine ⟨?_, ?_, by decide, ?_⟩
  · intro keywords events pids
    rw [processEvents, processEvents_fst]
    rfl
  · intro keywords title
    rw [eventMatched, List.any_eq_true]
  · intro events pids
    rw [processEvents, processEvents_fst]
    simp [eventMatched]

theorem processUsersStep_snd_mono (events : List EventItem)
    (acc : List (String × List String) × List Nat) (u : UserSetting) (i : Nat)
    (h : i ∈ acc.2) : i ∈ (processUsersStep events acc u).2 := by
  rw [processUsersStep]
  by_cases hg : (u.is_active && truthyEmail u.email_address) = true
  · rw [if_pos hg]
    have hin : i ∈ (processEvents u.keywords events acc.2).2 := by
      rw [processEvents, processEvents_snd_mem]
      exact Or.inl h
    by_cases he : (processEvents u.keywords events acc.2).1.isEmpty = true
    · rw [if_pos he]
      exact hin
    · rw [if_neg he]
      exact hin
  · rw [if_neg hg]
    exact h

theorem processUsers_snd_mono (events : List EventItem) :
    ∀ (us : List UserSetting) (acc : List (String × List String) × List Nat)
      (i : Nat), i ∈ acc.2 → i ∈ (us.foldl (processUsersStep events) acc).2 := by
  intro us
  induction us with
  | nil => intro acc i h; exact h
  | cons u rest ih =>
      intro acc i h
      rw [List.foldl_cons]
      exact ih _ i (processUsersStep_snd_mono events acc u i h)

theorem processUsersStep_snd_of_match (events : List EventItem)
    (acc : List (String × List String) × List Nat) (u : UserSetting) (e : EventItem)
    (hg : (u.is_active && truthyEmail u.email_address) = true)
    (he : e ∈ events) (hm : eventMatched u.keywords e.title = true) :
    e.id ∈ (processUsersStep events acc u).2 := by
  rw [processUsersStep, if_pos hg]
  have hin : e.id ∈ (processEvents u.keywords events acc.2).2 := by
    rw [processEvents, processEvents_snd_mem]
    exact Or.inr ⟨e, he, hm, rfl⟩
  by_cases hE : (processEvents u.keywords events acc.2).1.isEmpty = true
  · rw [if_pos hE]
    exact hin
  · rw [if_neg hE]
    exact hin

/-- Every item matched by some processed (active, with-email) subscription
ends up in `processed_event_ids`. -/
theorem processUsers_snd_of_match (events : List EventItem) (us : List UserSetting)
    (u : UserSetting) (e : EventItem)
    (hu : u ∈ us) (hg : (u.is_active && truthyEmail u.email_address) = true)
    (he : e ∈ events) (hm : eventMatched u.keywords e.title = true) :
    e.id ∈ (processUsers us events).2 := by
  obtain ⟨l1, l2, rfl⟩ := List.append_of_mem hu
  rw [processUsers, List.foldl_append, List.foldl_cons]
  exact processUsers_snd_mono events l2 _ _
    (processUsersStep_snd_of_match events _ u e hg he hm)

/-- A full run never mutates the event store: every branch of
`process_and_notify_users` returns the events unchanged — the marking
step's calls all fail against the missing
`crud_scraped_event.update_processed_status` and are swallowed. -/
theorem process_and_notify_users_events_unchanged (us : List UserSetting)
    (events : List EventItem) :
    (process_and_notify_users us events).events = events := by
  rw [process_and_notify_users]
  by_cases h1 : us.isEmpty = true
  · rw [if_pos h1]
  · rw [if_neg h1]
    by_cases h2 : (fetchUnprocessed events).isEmpty = true
    · rw [if_pos h2]
    · rw [if_neg h2]

/-- C6: the notification matcher is not idempotent.  With one active
subscription and one matching unprocessed item, the first run sends one
email but leaves the store unchanged — the marking step's
`PUT /scraped-events/{id}/processed` invokes the nonexistent
`crud_scraped_event.update_processed_status`, fails with 500 and is
swallowed — so the second run fetches the very same item and sends the
notification again. -/
theorem second_run_resends_notification :
    (process_and_notify_users
      [{ email_address := some "u@example.com", keywords := ["python"], is_active := true }]
      [{ id := 1, title := "Python Workshop" }]).emailsSent.length = 1 ∧
    (process_and_notify_users
      [{ email_address := some "u@example.com", keywords := ["python"], is_active := true }]
      [{ id := 1, title := "Python Workshop" }]).events =
      [{ id := 1, title := "Python Workshop" }] ∧
    (process_and_notify_users
      [{ email_address := some "u@example.com", keywords := ["python"], is_active := true }]
      (process_and_notify_users
        [{ email_address := some "u@example.com", keywords := ["python"], is_active := true }]
        [{ id := 1, title := "Python Workshop" }]).events).emailsSent.length = 1 := by
  decide

/-! ### Duplicate destination addresses (dict-overwrite semantics) -/

/-- Number of entries of an association list carrying a given key. -/
def countKey {α : Type} (l : List (String × α)) (k : String) : Nat :=
  (l.filter (fun p => p.1 == k)).length

theorem upsert_countKey_self {α : Type} (k : String) (v : α) :
    ∀ l : List (String × α), countKey l k ≤ 1 → countKey (upsert k v l) k = 1 := by
  intro l
  induction l with
  | nil => intro _; simp [upsert, countKey]
  | cons p rest ih =>
      intro h
      rw [upsert]
      by_cases hp : (p.1 == k) = true
      · rw [if_pos hp]
        rw [countKey, List.filter_cons] at h ⊢
        rw [if_pos hp] at h
        rw [if_pos (by simp)]
        simp only [List.length_cons] at h ⊢
        have : (List.filter (fun p => p.1 == k) rest).length = 0 := by omega
        omega
      · rw [if_neg hp]
        rw [countKey, List.filter_cons, if_neg hp] at h
        rw [countKey, List.filter_cons, if_neg hp]
        exact ih h

theorem upsert_countKey_ne {α : Type} (k k2 : String) (v : α) (hne : k ≠ k2) :
    ∀ l : List (String × α), countKey (upsert k v l) k2 = countKey l k2 := by
  intro l
  induction l with
  | nil => simp [upsert, countKey, hne]
  | cons p rest ih =>
      rw [upsert]
      by_cases hp : (p.1 == k) = true
      · rw [if_pos hp]
        have hpk : p.1 = k := by simpa using hp
        rw [countKey, List.filter_cons, countKey, List.filter_cons,
          if_neg (by simp [hne]), if_neg (by simp [hpk, hne])]
      · rw [if_neg hp]
        rw [countKey, List.filter_cons, countKey, List.filter_cons]
        by_cases hp2 : (p.1 == k2) = true
        · rw [if_pos hp2, if_pos hp2]
          simp only [List.length_cons]
          rw [← countKey, ← countKey, ih]
        · rw [if_neg hp2, if_neg hp2]
          exact ih

theorem upsert_find_self {α : Type} (k : String) (v : α) :
    ∀ l : List (String × α),
      (upsert k v l).find? (fun p => p.1 == k) = some (k, v) := by
  intro l
  induction l with
  | nil => simp [upsert]
  | cons p rest ih =>
      rw [upsert]
      by_cases hp : (p.1 == k) = true
      · rw [if_pos hp]
        simp [List.find?]
      · rw [if_neg hp]
        rw [List.find?]
        simp only [hp]
        exact ih

theorem upsert_find_ne {α : Type} (k k2 : String) (v : α) (hne : k ≠ k2) :
    ∀ l : List (String × α),
      (upsert k v l).find? (fun p => p.1 == k2) = l.find? (fun p => p.1 == k2) := by
  intro l
  have hkk : (k == k2) = false := by simp [hne]
  induction l with
  | nil => simp [upsert, List.find?, hkk]
  | cons p rest ih =>
      rw [upsert]
      by_cases hp : (p.1 == k) = true
      · rw [if_pos hp]
        have hpk : p.1 = k := by simpa using hp
        rw [List.find?, List.find?]
        have h1 : ((k, v).1 == k2) = false := by simp [hne]
        have h2 : (p.1 == k2) = false := by simp [hpk, hne]
        simp only [h1, h2]
      · rw [if_neg hp]
        rw [List.find?, List.find?]
        by_cases hp2 : (p.1 == k2) = true
        · simp only [hp2]
        · simp only [hp2]
          exact ih

/-- A step of the user loop that does not write the key `a` (either it is
skipped, matches nothing, or writes a different address) preserves both
the number of entries at `a` and the entry found at `a`. -/
theorem processUsersStep_key_preserved (events : List EventItem)
    (acc : List (String × List String) × List Nat) (u : UserSetting) (a : String)
    (h : (u.is_active && truthyEmail u.email_address) = true →
      (processEvents u.keywords events acc.2).1 ≠ [] →
      u.email_address.getD "" ≠ a) :
    countKey (processUsersStep events acc u).1 a = countKey acc.1 a ∧
    (processUsersStep events acc u).1.find? (fun p => p.1 == a) =
      acc.1.find? (fun p => p.1 == a) := by
  rw [processUsersStep]
  by_cases hg : (u.is_active && truthyEmail u.email_address) = true
  · rw [if_pos hg]
    by_cases he : (processEvents u.keywords events acc.2).1.isEmpty = true
    · rw [if_pos he]
      exact ⟨rfl, rfl⟩
    · rw [if_neg he]
      have hkey : u.email_address.getD "" ≠ a :=
        h hg (fun hnil => he (by rw [hnil]; rfl))
      exact ⟨upsert_countKey_ne _ _ _ hkey acc.1,
        upsert_find_ne _ _ _ hkey acc.1⟩
  · rw [if_neg hg]
    exact ⟨rfl, rfl⟩

/-- Tail of the user loop after the last same-address writer: no later
subscription writes the address again. -/
theorem processUsers_tail_preserved (events : List EventItem) (a : String) :
    ∀ (l2 : List UserSetting) (acc : List (String × List String) × List Nat),
      (∀ s2, s2 ∈ l2 → s2.is_active = true → s2.email_address = some a →
        events.filter (fun e => eventMatched s2.keywords e.title) = []) →
      countKey (l2.foldl (processUsersStep events) acc).1 a = countKey acc.1 a ∧
      (l2.foldl (processUsersStep events) acc).1.find? (fun p => p.1 == a) =
        acc.1.find? (fun p => p.1 == a) := by
  intro l2
  induction l2 with
  | nil => intro acc _; exact ⟨rfl, rfl⟩
  | cons s2 rest ih =>
      intro acc h
      rw [List.foldl_cons]
      have hstep := processUsersStep_key_preserved events acc s2 a (by
        intro hg hne
        intro hkey
        rcases hmail : s2.email_address with _ | b
        · rw [hmail] at hg
          simp [truthyEmail] at hg
        · rw [hmail] at hkey
          have hb : b = a := hkey
          subst hb
          have hact : s2.is_active = true := by
            have hg2 := hg
            rw [Bool.and_eq_true] at hg2
            exact hg2.1
          have hfil := h s2 (List.mem_cons_self s2 rest) hact hmail
          apply hne
          rw [processEvents, processEvents_fst, hfil]
          rfl)
      have htail := ih (processUsersStep events acc s2)
        (fun s3 hs3 => h s3 (List.mem_cons_of_mem s2 hs3))
      exact ⟨htail.1.trans hstep.1, htail.2.trans hstep.2⟩

theorem processUsersStep_countKey_le (events : List EventItem)
    (acc : List (String × List String) × List Nat) (u : UserSetting) (a : String)
    (h : countKey acc.1 a ≤ 1) :
    countKey (processUsersStep events acc u).1 a ≤ 1 := by
  rw [processUsersStep]
  by_cases hg : (u.is_active && truthyEmail u.email_address) = true
  · rw [if_pos hg]
    by_cases he : (processEvents u.keywords events acc.2).1.isEmpty = true
    · rw [if_pos he]
      exact h
    · rw [if_neg he]
      by_cases hkey : u.email_address.getD "" = a
      · rw [hkey]
        rw [upsert_countKey_self a _ acc.1 h]
      · rw [upsert_countKey_ne _ _ _ hkey acc.1]
        exact h
  · rw [if_neg hg]
    exact h

theorem processUsers_countKey_le (events : List EventItem) (a : String) :
    ∀ (us : List UserSetting) (acc : List (String × List String) × List Nat),
      countKey acc.1 a ≤ 1 →
      countKey (us.foldl (processUsersStep events) acc).1 a ≤ 1 := by
  intro us
  induction us with
  | nil => intro acc h; exact h
  | cons u rest ih =>
      intro acc h
      rw [List.foldl_cons]
      exact ih _ (processUsersStep_countKey_le events acc u a h)

/-- C9 counterexample: the claim's conjunct that items matched only by
earlier same-address subscriptions are "still marked processed" is false
of the program.  Two active same-address subscriptions, each with a
matched item: item 7, matched only by the earlier subscription, enters the
in-memory `processed_event_ids` set, but after the full run the store is
byte-for-byte unchanged — both items still have `is_processed = false`,
because the marking calls all fail against the nonexistent
`crud_scraped_event.update_processed_status` and are swallowed. -/
theorem earlier_items_not_marked_counterexample :
    7 ∈ (processUsers
      [{ email_address := some "u@example.com", keywords := ["python"], is_active := true },
       { email_address := some "u@example.com", keywords := ["workshop"], is_active := true }]
      [{ id := 7, title := "Python lecture" }, { id := 8, title := "Craft Workshop" }]).2 ∧
    (process_and_notify_users
      [{ email_address := some "u@example.com", keywords := ["python"], is_active := true },
       { email_address := some "u@example.com", keywords := ["workshop"], is_active := true }]
      [{ id := 7, title := "Python lecture" }, { id := 8, title := "Craft Workshop" }]).events =
      [{ id := 7, title := "Python lecture", is_processed := false },
       { id := 8, title := "Craft Workshop", is_processed := false }] ∧
    ((process_and_notify_users
      [{ email_address := some "u@example.com", keywords := ["python"], is_active := true },
       { email_address := some "u@example.com", keywords := ["workshop"], is_active := true }]
      [{ id := 7, title := "Python lecture" }, { id := 8, title := "Craft Workshop" }]).events.filter
        (fun e => e.is_processed)).length = 0 := by
  decide

/-- C9 amended: when several active subscriptions carry the same
destination address and each matches something, exactly one notification
goes to that address — the per-address dictionary entry is overwritten by
each later same-address subscription, so the email body holds only the
matched titles of the subscription processed last — and items matched only
by the earlier same-address subscriptions are still added to the in-memory
`processed_event_ids` set submitted for marking; but no item is actually
marked processed: the marking call chain always fails (the endpoint
invokes a CRUD function that does not exist) and the run leaves the event
store unchanged. -/
theorem duplicate_email_last_wins (l1 l2 : List UserSetting) (s : UserSetting)
    (events : List EventItem) (a : String)
    (hact : s.is_active = true) (hmail : s.email_address = some a) (hane : a ≠ "")
    (hmatched : events.filter (fun e => eventMatched s.keywords e.title) ≠ [])
    (hlast : ∀ s2, s2 ∈ l2 → s2.is_active = true → s2.email_address = some a →
      events.filter (fun e => eventMatched s2.keywords e.title) = [])
    (_hearlier : ∃ s1, s1 ∈ l1 ∧ s1.is_active = true ∧ s1.email_address = some a ∧
      events.filter (fun e => eventMatched s1.keywords e.title) ≠ []) :
    countKey (processUsers (l1 ++ s :: l2) events).1 a = 1 ∧
    (processUsers (l1 ++ s :: l2) events).1.find? (fun p => p.1 == a) =
      some (a, (events.filter (fun e => eventMatched s.keywords e.title)).map
        EventItem.title) ∧
    (∀ s1 e, s1 ∈ l1 → s1.is_active = true → s1.email_address = some a →
      e ∈ events → eventMatched s1.keywords e.title = true →
      e.id ∈ (processUsers (l1 ++ s :: l2) events).2) ∧
    (process_and_notify_users (l1 ++ s :: l2) events).events = events := by
  have hg : (s.is_active && truthyEmail s.email_address) = true := by
    rw [hact, hmail]
    simp [truthyEmail, hane]
  have hsplit : processUsers (l1 ++ s :: l2) events =
      l2.foldl (processUsersStep events)
        (processUsersStep events
          (l1.foldl (processUsersStep events) ([], [])) s) := by
    rw [processUsers, List.foldl_append, List.foldl_cons]
  have hmt : (processEvents s.keywords events
      (l1.foldl (processUsersStep events) ([], [])).2).1 =
      (events.filter (fun e => eventMatched s.keywords e.title)).map
        EventItem.title := by
    rw [processEvents, processEvents_fst]
    rfl
  have hne2 : ¬ (processEvents s.keywords events
      (l1.foldl (processUsersStep events) ([], [])).2).1.isEmpty = true := by
    rw [hmt]
    intro hE
    exact hmatched (List.map_eq_nil_iff.mp (List.isEmpty_iff.mp hE))
  have hstep : processUsersStep events
      (l1.foldl (processUsersStep events) ([], [])) s =
      (upsert a ((events.filter (fun e => eventMatched s.keywords e.title)).map
          EventItem.title)
        (l1.foldl (processUsersStep events) ([], [])).1,
       (processEvents s.keywords events
         (l1.foldl (processUsersStep events) ([], [])).2).2) := by
    rw [processUsersStep, if_pos hg, if_neg hne2, hmail, hmt]
    rfl
  have hcnt : countKey (l1.foldl (processUsersStep events) ([], [])).1 a ≤ 1 :=
    processUsers_countKey_le events a l1 ([], []) (by simp [countKey])
  have htail := processUsers_tail_preserved events a l2
    (processUsersStep events (l1.foldl (processUsersStep events) ([], [])) s)
    hlast
  refine ⟨?_, ?_, ?_, ?_⟩
  · rw [hsplit, htail.1, hstep]
    exact upsert_countKey_self a _ _ hcnt
  · rw [hsplit, htail.2, hstep]
    exact upsert_find_self a _ _
  · intro s1 e hs1 ha1 hm1 he hme
    refine processUsers_snd_of_match events _ s1 e ?_ ?_ he hme
    · exact List.mem_append_left _ hs1
    · rw [ha1, hm1]
      simp [truthyEmail, hane]
  · exact process_and_notify_users_events_unchanged _ _

/-- Witness: two active subscriptions for `u@example.com` — keywords
`["python"]` then `["workshop"]` — against the single item
`"Python Workshop"`: one entry for the address, holding the titles matched
by the second subscription; the item matched by the first is in the
processed-ids set while the store comes back unchanged. -/
theorem duplicate_email_last_wins_witness :
    countKey (processUsers
      [{ email_address := some "u@example.com", keywords := ["python"], is_active := true },
       { email_address := some "u@example.com", keywords := ["workshop"], is_active := true }]
      [{ id := 7, title := "Python Workshop" }]).1 "u@example.com" = 1 ∧
    (processUsers
      [{ email_address := some "u@example.com", keywords := ["python"], is_active := true },
       { email_address := some "u@example.com", keywords := ["workshop"], is_active := true }]
      [{ id := 7, title := "Python Workshop" }]).1.find?
        (fun p => p.1 == "u@example.com") =
      some ("u@example.com",
        (([{ id := 7, title := "Python Workshop" }] : List EventItem).filter
          (fun e => eventMatched ["workshop"] e.title)).map EventItem.title) ∧
    7 ∈ (processUsers
      [{ email_address := some "u@example.com", keywords := ["python"], is_active := true },
       { email_address := some "u@example.com", keywords := ["workshop"], is_active := true }]
      [{ id := 7, title := "Python Workshop" }]).2 ∧
    (process_and_notify_users
      [{ email_address := some "u@example.com", keywords := ["python"], is_active := true },
       { email_address := some "u@example.com", keywords := ["workshop"], is_active := true }]
      [{ id := 7, title := "Python Workshop" }]).events =
      [{ id := 7, title := "Python Workshop" }] := by
  have h := duplicate_email_last_wins
    [{ email_address := some "u@example.com", keywords := ["python"], is_active := true }]
    []
    { email_address := some "u@example.com", keywords := ["workshop"], is_active := true }
    [{ id := 7, title := "Python Workshop" }] "u@example.com"
    rfl rfl (by decide) (by decide)
    (fun s2 hs2 => absurd hs2 (List.not_mem_nil s2))
    ⟨{ email_address := some "u@example.com", keywords := ["python"], is_active := true },
      List.mem_cons_self _ _, rfl, rfl, by decide⟩
  exact ⟨h.1, h.2.1,
    h.2.2.1 { email_address := some "u@example.com", keywords := ["python"], is_active := true }
      { id := 7, title := "Python Workshop" }
      (List.mem_cons_self _ _) rfl rfl (List.mem_cons_self _ _) (by decide),
    h.2.2.2⟩

end AbleClub
